import Mathlib

/-!
# Verification of the FraudRadar trust-scoring and alert-dispatch core

Shallow embedding of the trust & verification scoring engine and the
proximity/pattern alert dispatch subsystem of the FraudRadar repository:

* `src/server/models/User.js` — user schema, `updateTrustScore`;
* `src/server/models/Alert.js` — alert schema, `shouldSendViaChannel`;
* `src/server/models/FraudReport.js` (sources `src/unnamed/part_001`) —
  fraud-report schema and `calculateTrustScore`;
* `src/server/routes/alerts.js` — `POST /api/fraud/reports/:id/verify`
  (vote application) and `POST /api/fraud/report` (report creation);
* `src/server/services/notificationService.js` — `createProximityAlerts`,
  `createMatchAlerts`, `getSeverityFromPriority`.

JavaScript numbers are modelled as `ℕ`/`ℤ`/`ℚ` (the arithmetic involved is
exact in every claim considered); `Math.round` is modelled by `jsRound`
(round half toward +∞, the JS semantics for finite inputs).
-/

namespace FraudRadar

/-- JavaScript `Math.round` on an exact rational: round half toward +∞,
i.e. `⌊q + 1/2⌋`. -/
def jsRound (q : ℚ) : ℤ := ⌊q + 1/2⌋

/-! ## Data model: votes, verification entries, reports
From `fraudReportSchema` in `src/unnamed/part_001` (the FraudReport model). -/

/-- The vote values: `vote ∈ {confirm, deny, uncertain}` (fraudReportSchema `verification.verifiedBy.vote`). -/
inductive Vote where
  | confirm
  | deny
  | uncertain
deriving DecidableEq, Repr

/-- The verification status values: `verification.status ∈ {pending, verified, disputed, false_positive}`. -/
inductive VerificationStatus where
  | pending
  | verified
  | disputed
  | falsePositive
deriving DecidableEq, Repr

/-- One element of `verification.verifiedBy`.  `voterId` is the stored
`user` ObjectId; `voterTrust` is the voter's `trustScore` as resolved by
`populate('verification.verifiedBy.user', 'trustScore')` — `none` when the
voter record cannot be resolved (deleted / missing user). -/
structure VEntry where
  voterId : ℕ
  voterTrust : Option ℕ
  vote : Vote
  comment : String
  verifiedAt : ℕ
deriving DecidableEq, Repr

/-- The `verification` sub-document of a fraud report. -/
structure Verification where
  trustScore : ℤ
  verificationCount : ℕ
  verifiedBy : List VEntry
  status : VerificationStatus
deriving DecidableEq, Repr

/-- The part of a fraud report that the trust scorer reads and writes. -/
structure Report where
  verification : Verification
deriving DecidableEq, Repr

/-- A freshly created report: the schema defaults of `fraudReportSchema.verification`
(`trustScore` default 0, `verificationCount` default 0, `verifiedBy` empty,
`status` default `'pending'`).  `POST /api/fraud/report` constructs the document
without touching `verification`, so a new report carries exactly these defaults. -/
def freshReport : Report :=
  { verification :=
    { trustScore := 0
      verificationCount := 0
      verifiedBy := []
      status := VerificationStatus.pending } }

/-! ## calculateTrustScore
`fraudReportSchema.methods.calculateTrustScore`, `src/unnamed/part_001` lines 201–244. -/

/-- The JS truthiness test `verification.user && verification.user.trustScore`:
the voter document resolved and its `trustScore` is truthy (a nonzero number). -/
def resolvable (v : VEntry) : Bool :=
  match v.voterTrust with
  | some t => t ≠ 0
  | none => false

/-- The weight a resolvable voter contributes: `user.trustScore / 100`. -/
def entryWeight (v : VEntry) : ℚ :=
  match v.voterTrust with
  | some t => (t : ℚ) / 100
  | none => 0

/-- The `forEach` accumulation loop of `calculateTrustScore`: a left fold
producing `(weightedConfirm, weightedDeny, totalWeight)`.  An unresolvable
voter is skipped entirely; a resolvable voter's weight always enters
`totalWeight`, and additionally `weightedConfirm` on a confirm vote or
`weightedDeny` on a deny vote (an uncertain vote only dilutes). -/
def accumulateWeights (entries : List VEntry) : ℚ × ℚ × ℚ :=
  entries.foldl
    (fun acc v =>
      if resolvable v then
        let weight := entryWeight v
        let withTotal := (acc.1, acc.2.1, acc.2.2 + weight)
        if v.vote = Vote.confirm then
          (withTotal.1 + weight, withTotal.2.1, withTotal.2.2)
        else if v.vote = Vote.deny then
          (withTotal.1, withTotal.2.1 + weight, withTotal.2.2)
        else withTotal
      else acc)
    (0, 0, 0)

/-- The method `calculateTrustScore` (src/unnamed/part_001 lines 201–244): sets
`verification.trustScore` to 30 when `verificationCount` is 0; otherwise
computes the trust-weighted confirm ratio, falling back to the unweighted
`confirmVotes / totalVotes` when no voter weight is resolvable; then derives
`verification.status` from the resulting score. -/
def calculateTrustScore (r : Report) : Report :=
  if r.verification.verificationCount = 0 then
    { r with verification := { r.verification with trustScore := 30 } }
  else
    let confirmVotes := (r.verification.verifiedBy.filter
      (fun v => v.vote = Vote.confirm)).length
    let totalVotes := r.verification.verificationCount
    let acc := accumulateWeights r.verification.verifiedBy
    let weightedConfirm := acc.1
    let totalWeight := acc.2.2
    let trustScore : ℤ :=
      if totalWeight > 0 then
        jsRound (weightedConfirm / totalWeight * 100)
      else
        jsRound ((confirmVotes : ℚ) / (totalVotes : ℚ) * 100)
    let status :=
      if trustScore ≥ 80 then VerificationStatus.verified
      else if trustScore ≤ 20 then VerificationStatus.disputed
      else VerificationStatus.pending
    { r with verification :=
      { r.verification with trustScore := trustScore, status := status } }

/-! ## Vote application
`POST /api/fraud/reports/:id/verify`, `src/server/routes/alerts.js` lines 1041–1125. -/

/-- Update the first list element satisfying `p` with `f`, leaving the rest
unchanged (the route's `find`-then-mutate-in-place on `verifiedBy`). -/
def updateFirst (p : α → Bool) (f : α → α) : List α → List α
  | [] => []
  | x :: xs => if p x then f x :: xs else x :: updateFirst p f xs

/-- The verification mutation of `POST /api/fraud/reports/:id/verify`
(alerts.js lines 1067–1086): find an existing `verifiedBy` entry for the voter;
if present overwrite its `vote`, `comment` and `verifiedAt` in place; otherwise
push a new entry and increment `verification.verificationCount`.  `voterTrust`
is the voter's resolved trust score (used only when a new entry is appended; an
in-place update keeps the stored user reference untouched). -/
def applyVoteEntries (r : Report) (voterId : ℕ) (voterTrust : Option ℕ)
    (vote : Vote) (comment : String) (now : ℕ) : Report :=
  let vb := r.verification.verifiedBy
  let vbUpdated := updateFirst (fun v => v.voterId = voterId)
    (fun v => { v with vote := vote, comment := comment, verifiedAt := now }) vb
  let vbAppended := vb ++ [⟨voterId, voterTrust, vote, comment, now⟩]
  if vb.any (fun v => v.voterId = voterId) then
    { r with verification := { r.verification with verifiedBy := vbUpdated } }
  else
    { r with verification :=
      { r.verification with
          verifiedBy := vbAppended,
          verificationCount := r.verification.verificationCount + 1 } }

/-- The whole vote route: mutate the verification entries, then recalculate
the trust score (alerts.js lines 1067–1091). -/
def applyVote (r : Report) (voterId : ℕ) (voterTrust : Option ℕ)
    (vote : Vote) (comment : String) (now : ℕ) : Report :=
  calculateTrustScore (applyVoteEntries r voterId voterTrust vote comment now)

/-! ## User reputation
`userSchema.methods.updateTrustScore`, `src/server/models/User.js` lines 129–141. -/

/-- The reputation tiers: `reputation ∈ {new, trusted, verified, expert}`. -/
inductive Reputation where
  | new
  | trusted
  | verified
  | expert
deriving DecidableEq, Repr

/-- The part of a user document read and written by `updateTrustScore`. -/
structure UserRecord where
  trustScore : ℕ
  reportCount : ℕ
  verificationCount : ℕ
  reputation : Reputation
deriving DecidableEq, Repr

/-- The method `updateTrustScore` (User.js lines 129–141): recompute `trustScore` from
the activity counters with a base of 50, a report bonus capped at 30 and a
verification bonus capped at 40, capped overall at 100, and rederive
`reputation` from the new score. -/
def updateTrustScore (u : UserRecord) : UserRecord :=
  let baseScore := 50
  let reportBonus := min (u.reportCount * 2) 30
  let verificationBonus := min (u.verificationCount * 3) 40
  let trustScore := min (baseScore + reportBonus + verificationBonus) 100
  let reputation :=
    if trustScore ≥ 90 then Reputation.expert
    else if trustScore ≥ 75 then Reputation.verified
    else if trustScore ≥ 60 then Reputation.trusted
    else Reputation.new
  { u with trustScore := trustScore, reputation := reputation }

/-! ## Alert channels
`alertSchema` and `shouldSendViaChannel`, `src/server/models/Alert.js`. -/

/-- The severity levels: `severity ∈ {low, medium, high, critical}`. -/
inductive Severity where
  | low
  | medium
  | high
  | critical
deriving DecidableEq, Repr

/-- A notification delivery channel. -/
inductive Channel where
  | email
  | sms
  | push
deriving DecidableEq, Repr

/-- Per-channel delivery state of an alert (only the `sent` flag is read by
`shouldSendViaChannel`). -/
structure ChannelState where
  sent : Bool
deriving DecidableEq, Repr

/-- The `channels` sub-document of an alert. -/
structure Channels where
  email : ChannelState
  sms : ChannelState
  push : ChannelState
deriving DecidableEq, Repr

/-- The recipient preferences `userPreferences.notifications` (User.js `preferences.notifications`). -/
structure NotificationPrefs where
  email : Bool
  sms : Bool
  push : Bool
deriving DecidableEq, Repr

/-- Look up a channel's state. -/
def Channels.get (c : Channels) : Channel → ChannelState
  | Channel.email => c.email
  | Channel.sms => c.sms
  | Channel.push => c.push

/-- Look up whether a channel is enabled in the preferences. -/
def NotificationPrefs.get (p : NotificationPrefs) : Channel → Bool
  | Channel.email => p.email
  | Channel.sms => p.sms
  | Channel.push => p.push

/-- The part of an alert read by `shouldSendViaChannel`. -/
structure AlertDoc where
  severity : Severity
  channels : Channels
deriving DecidableEq, Repr

/-- The method `alertSchema.methods.shouldSendViaChannel` (Alert.js lines 94–102):
a channel is used only when the recipient has it enabled, the alert has not
already been sent on it, and — for SMS — the severity is not `low`. -/
def shouldSendViaChannel (a : AlertDoc) (channel : Channel)
    (prefs : NotificationPrefs) : Bool :=
  if !(prefs.get channel) then false
  else if (a.channels.get channel).sent then false
  else if channel = Channel.sms ∧ a.severity = Severity.low then false
  else true

/-! ## Alert creation
`createProximityAlerts` and `createMatchAlerts`,
`src/server/services/notificationService.js` lines 135–252, and
`getSeverityFromPriority` (lines 400–408). -/

/-- The priority tiers: `priority ∈ {low, medium, high, critical}` (fraudReportSchema `priority`). -/
inductive Priority where
  | low
  | medium
  | high
  | critical
deriving DecidableEq, Repr

/-- The mapping `getSeverityFromPriority` (notificationService.js lines 400–408): the
identity table on the four priority levels (with `medium` as the fallback for
anything outside the table, unreachable for schema-valid priorities). -/
def getSeverityFromPriority : Priority → Severity
  | Priority.low => Severity.low
  | Priority.medium => Severity.medium
  | Priority.high => Severity.high
  | Priority.critical => Severity.critical

/-- The `alertType` values produced by the dispatch subsystem
(alertSchema `alertType`, restricted to the types this file needs). -/
inductive AlertType where
  | proximity
  | phoneMatch
  | emailMatch
deriving DecidableEq, Repr

/-- The identity of an alert record as created by the notification service:
recipient, source report and alert type, plus the fields the claims mention. -/
structure AlertRecord where
  user : ℕ
  fraudReport : ℕ
  alertType : AlertType
  severity : Severity
deriving DecidableEq, Repr

/-- The slice of a user document read by the alert-creation scans. -/
structure CandidateUser where
  id : ℕ
  isActive : Bool
  pushEnabled : Bool
  alertRadius : ℚ
  fraudTypes : List String
  phone : Option String
  email : String
deriving DecidableEq, Repr

/-- The slice of a fraud report read by the alert-creation scans. -/
structure ReportInfo where
  id : ℕ
  reportedBy : ℕ
  fraudType : String
  priority : Priority
  evidencePhone : Option String
  evidenceEmail : Option String
deriving DecidableEq, Repr

/-- The scan `createProximityAlerts` (notificationService.js lines 135–205).
`dist` gives each user's distance in kilometres from the report's location;
it stands for both the MongoDB `$near` spherical distance of the candidate
query and the service's own haversine `calculateDistance` (lines 380–394),
which are the same great-circle distance — the haversine trigonometry itself
is real-valued and is abstracted here, the claims being about the selection
logic.  The candidate query keeps active, push-enabled users within the
**global** `alertRadius = 10` km (`$maxDistance` is inclusive); each candidate
is then dropped when they are the reporter, when they subscribed to fraud
types not including the report's, or when the distance exceeds the *user's*
configured `preferences.alertRadius`; the survivors each get one `proximity`
alert with severity derived from the report's priority. -/
def createProximityAlerts (users : List CandidateUser) (report : ReportInfo)
    (dist : ℕ → ℚ) : List AlertRecord :=
  let alertRadius : ℚ := 10
  let nearbyUsers := users.filter
    (fun u => u.isActive && u.pushEnabled && decide (dist u.id ≤ alertRadius))
  nearbyUsers.filterMap (fun u =>
    if u.id = report.reportedBy then none
    else if 0 < u.fraudTypes.length ∧ ¬ (report.fraudType ∈ u.fraudTypes) then none
    else
      let distance := dist u.id
      if distance > u.alertRadius then none
      else some
        { user := u.id
          fraudReport := report.id
          alertType := AlertType.proximity
          severity := getSeverityFromPriority report.priority })

/-- The alerts `createMatchAlerts` builds for one user (notificationService.js
lines 211–235): a `phone_match` alert when the report's evidence phone is
present and equals the user's phone, and an `email_match` alert when the
report's evidence email is present and equals the user's email — both of
severity `critical`, independent of each other. -/
def matchAlertsFor (report : ReportInfo) (u : CandidateUser) : List AlertRecord :=
  (match report.evidencePhone with
   | some p =>
      if u.phone = some p then
        [⟨u.id, report.id, AlertType.phoneMatch, Severity.critical⟩]
      else []
   | none => []) ++
  (match report.evidenceEmail with
   | some e =>
      if u.email = e then
        [⟨u.id, report.id, AlertType.emailMatch, Severity.critical⟩]
      else []
   | none => [])

/-- The scan `createMatchAlerts` (notificationService.js lines 207–252) against an
explicit alert store: for every active user the matching alerts are built and
saved.  The function never consults `store` — each `new Alert(...).save()`
inserts unconditionally, and `alertSchema` declares no unique index on
`(user, fraudReport, alertType)` (Alert.js lines 79–84), so saves of repeated
triples all succeed. -/
def createMatchAlerts (users : List CandidateUser) (report : ReportInfo)
    (store : List AlertRecord) : List AlertRecord :=
  store ++ (users.filter (fun u => u.isActive)).flatMap (matchAlertsFor report)

/-! ## Derived observations used in the statements -/

/-- Number of `verifiedBy` entries a report holds for a given voter. -/
def countFor (r : Report) (voterId : ℕ) : ℕ :=
  (r.verification.verifiedBy.filter (fun v => v.voterId = voterId)).length

/-- The first `verifiedBy` entry for a given voter, as the route's `find` sees it. -/
def findFor (r : Report) (voterId : ℕ) : Option VEntry :=
  r.verification.verifiedBy.find? (fun v => v.voterId = voterId)

/-- The weight an entry contributes to `weightedConfirm`: its voter weight on a
resolvable confirm vote, 0 otherwise. -/
def confirmWeight (v : VEntry) : ℚ :=
  if resolvable v ∧ v.vote = Vote.confirm then entryWeight v else 0

/-- The weight an entry contributes to `weightedDeny`. -/
def denyWeight (v : VEntry) : ℚ :=
  if resolvable v ∧ v.vote = Vote.deny then entryWeight v else 0

/-- The weight an entry contributes to `totalWeight`: its voter weight whenever
the voter is resolvable, whatever the vote (confirm, deny or uncertain). -/
def resolvableWeight (v : VEntry) : ℚ :=
  if resolvable v then entryWeight v else 0

/-- The accumulator `weightedConfirm` as a sum over the entries. -/
def weightedConfirmOf (entries : List VEntry) : ℚ := (entries.map confirmWeight).sum

/-- The accumulator `weightedDeny` as a sum over the entries. -/
def weightedDenyOf (entries : List VEntry) : ℚ := (entries.map denyWeight).sum

/-- The accumulator `totalWeight` as a sum over the entries. -/
def totalWeightOf (entries : List VEntry) : ℚ := (entries.map resolvableWeight).sum

/-- An alert record carries the `(recipient, report, alertType)` identity triple. -/
def tripleIs (uid rid : ℕ) (t : AlertType) (a : AlertRecord) : Bool :=
  decide (a.user = uid ∧ a.fraudReport = rid ∧ a.alertType = t)

/-! ## Helper lemmas -/

theorem entryWeight_nonneg (v : VEntry) : 0 ≤ entryWeight v := by
  unfold entryWeight
  cases v.voterTrust with
  | none => exact le_refl 0
  | some t => positivity

theorem confirmWeight_nonneg (v : VEntry) : 0 ≤ confirmWeight v := by
  unfold confirmWeight
  split
  · exact entryWeight_nonneg v
  · exact le_refl 0

theorem resolvableWeight_nonneg (v : VEntry) : 0 ≤ resolvableWeight v := by
  unfold resolvableWeight
  split
  · exact entryWeight_nonneg v
  · exact le_refl 0

theorem confirmWeight_le_resolvableWeight (v : VEntry) :
    confirmWeight v ≤ resolvableWeight v := by
  unfold confirmWeight resolvableWeight
  split
  · rename_i h
    rw [if_pos h.1]
  · split
    · exact entryWeight_nonneg v
    · exact le_refl 0

theorem totalWeightOf_nonneg (entries : List VEntry) : 0 ≤ totalWeightOf entries :=
  List.sum_nonneg (by
    intro x hx
    obtain ⟨v, _, rfl⟩ := List.mem_map.mp hx
    exact resolvableWeight_nonneg v)

theorem weightedConfirmOf_nonneg (entries : List VEntry) : 0 ≤ weightedConfirmOf entries :=
  List.sum_nonneg (by
    intro x hx
    obtain ⟨v, _, rfl⟩ := List.mem_map.mp hx
    exact confirmWeight_nonneg v)

theorem weightedConfirmOf_le_totalWeightOf (entries : List VEntry) :
    weightedConfirmOf entries ≤ totalWeightOf entries :=
  List.sum_le_sum (fun v _ => confirmWeight_le_resolvableWeight v)

/-- The `forEach` fold agrees with the three per-entry sums. -/
theorem accumulateWeights_eq (entries : List VEntry) :
    accumulateWeights entries =
      (weightedConfirmOf entries, weightedDenyOf entries, totalWeightOf entries) := by
  suffices h : ∀ (es : List VEntry) (acc : ℚ × ℚ × ℚ),
      es.foldl
        (fun acc v =>
          if resolvable v then
            let weight := entryWeight v
            let withTotal := (acc.1, acc.2.1, acc.2.2 + weight)
            if v.vote = Vote.confirm then
              (withTotal.1 + weight, withTotal.2.1, withTotal.2.2)
            else if v.vote = Vote.deny then
              (withTotal.1, withTotal.2.1 + weight, withTotal.2.2)
            else withTotal
          else acc)
        acc =
      (acc.1 + weightedConfirmOf es, acc.2.1 + weightedDenyOf es, acc.2.2 + totalWeightOf es) by
    rw [accumulateWeights, h]
    simp
  intro es
  induction es with
  | nil =>
    intro acc
    simp [weightedConfirmOf, weightedDenyOf, totalWeightOf]
  | cons v es ih =>
    intro acc
    rw [List.foldl_cons, ih]
    simp only [weightedConfirmOf, weightedDenyOf, totalWeightOf, List.map_cons, List.sum_cons,
      confirmWeight, denyWeight, resolvableWeight, Prod.mk.injEq]
    split_ifs <;> simp_all [add_assoc, add_comm, add_left_comm]

/-- The rounding `jsRound` maps `[0, 100]` into `[0, 100]`. -/
theorem jsRound_bounds {q : ℚ} (h0 : 0 ≤ q) (h100 : q ≤ 100) :
    0 ≤ jsRound q ∧ jsRound q ≤ 100 := by
  unfold jsRound
  constructor
  · exact Int.le_floor.mpr (by push_cast; linarith)
  · have h : (⌊q + 1/2⌋ : ℤ) ≤ ⌊(100 : ℚ) + 1/2⌋ := Int.floor_le_floor (by linarith)
    have h2 : ⌊(100 : ℚ) + 1/2⌋ = 100 := by norm_num
    omega

/-- The method `calculateTrustScore` writes only `trustScore` and `status`: the entry list
and the verification count are untouched. -/
theorem calculateTrustScore_preserves (r : Report) :
    (calculateTrustScore r).verification.verifiedBy = r.verification.verifiedBy ∧
    (calculateTrustScore r).verification.verificationCount =
      r.verification.verificationCount := by
  unfold calculateTrustScore
  split <;> simp

/-! ## Claim C8 -/

/-- C8: a delivery channel is eligible if and only if the recipient has that
channel enabled in preferences, the alert's state for that channel is still
not-sent, and, when the channel is SMS, the severity is not low; consequently
SMS is never eligible for a low-severity alert, and a channel already marked
sent is never eligible again. -/
theorem shouldSendViaChannel_spec (a : AlertDoc) (c : Channel) (p : NotificationPrefs) :
    shouldSendViaChannel a c p = true ↔
      (p.get c = true ∧ (a.channels.get c).sent = false ∧
        (c = Channel.sms → a.severity ≠ Severity.low)) := by
  unfold shouldSendViaChannel
  split_ifs <;> simp_all

/-! ## Claim C9 -/

/-- C9: the reputation recomputation sets
`trustScore = min(50 + min(reportCount*2, 30) + min(verificationCount*3, 40), 100)`,
is monotonically non-decreasing in each counter, never exceeds 100, and derives
the tier as expert at ≥ 90, verified at ≥ 75, trusted at ≥ 60, else new. -/
theorem updateTrustScore_spec :
    (∀ u : UserRecord, (updateTrustScore u).trustScore =
        min (50 + min (u.reportCount * 2) 30 + min (u.verificationCount * 3) 40) 100) ∧
    (∀ u v : UserRecord, u.reportCount ≤ v.reportCount →
        u.verificationCount ≤ v.verificationCount →
        (updateTrustScore u).trustScore ≤ (updateTrustScore v).trustScore) ∧
    (∀ u : UserRecord, (updateTrustScore u).trustScore ≤ 100) ∧
    (∀ u : UserRecord, (updateTrustScore u).reputation =
        (if 90 ≤ (updateTrustScore u).trustScore then Reputation.expert
         else if 75 ≤ (updateTrustScore u).trustScore then Reputation.verified
         else if 60 ≤ (updateTrustScore u).trustScore then Reputation.trusted
         else Reputation.new)) := by
  refine ⟨fun u => rfl, ?_, ?_, fun u => rfl⟩
  · intro u v h1 h2
    simp only [updateTrustScore]
    omega
  · intro u
    simp only [updateTrustScore]
    omega

/-- Witness for C9 at concrete counters. -/
theorem updateTrustScore_spec_witness :
    (5 : ℕ) ≤ 6 ∧ (5 : ℕ) ≤ 5 ∧
    (updateTrustScore ⟨0, 5, 5, Reputation.new⟩).trustScore ≤
      (updateTrustScore ⟨0, 6, 5, Reputation.new⟩).trustScore :=
  ⟨by decide, by decide,
    updateTrustScore_spec.2.1 ⟨0, 5, 5, Reputation.new⟩ ⟨0, 6, 5, Reputation.new⟩
      (by decide) (by decide)⟩

/-! ## Claim C10 -/

/-- C10 (implicit): the reputation recomputation yields a trust score of at
least 50 — so every user trust score produced on this path lies in [50, 100] —
and a voter whose resolved trust score was produced by that recomputation is
always resolvable with weight at least 1/2 in the report-trust computation. -/
theorem updateTrustScore_floor_and_weight :
    (∀ u : UserRecord, 50 ≤ (updateTrustScore u).trustScore ∧
        (updateTrustScore u).trustScore ≤ 100) ∧
    (∀ (v : VEntry) (u : UserRecord),
        v.voterTrust = some ((updateTrustScore u).trustScore) →
        resolvable v = true ∧ (1 : ℚ)/2 ≤ entryWeight v) := by
  have hrange : ∀ u : UserRecord, 50 ≤ (updateTrustScore u).trustScore ∧
      (updateTrustScore u).trustScore ≤ 100 := by
    intro u
    simp only [updateTrustScore]
    omega
  refine ⟨hrange, ?_⟩
  intro v u hv
  obtain ⟨h50, _⟩ := hrange u
  constructor
  · simp only [resolvable, hv]
    simp only [decide_eq_true_eq]
    omega
  · simp only [entryWeight, hv]
    have hc : (50 : ℚ) ≤ ((updateTrustScore u).trustScore : ℚ) := by exact_mod_cast h50
    linarith

/-- Witness for C10: a voter whose trust score 75 comes from the
recomputation at counters (5, 5). -/
theorem updateTrustScore_floor_and_weight_witness :
    (⟨1, some 75, Vote.confirm, "", 0⟩ : VEntry).voterTrust =
        some ((updateTrustScore ⟨0, 5, 5, Reputation.new⟩).trustScore) ∧
    (resolvable ⟨1, some 75, Vote.confirm, "", 0⟩ = true ∧
      (1 : ℚ)/2 ≤ entryWeight ⟨1, some 75, Vote.confirm, "", 0⟩) :=
  ⟨by decide,
    updateTrustScore_floor_and_weight.2 ⟨1, some 75, Vote.confirm, "", 0⟩
      ⟨0, 5, 5, Reputation.new⟩ (by decide)⟩

/-! ## Claim C4 -/

/-- C4 counterexample: a freshly created report (the schema defaults, as
`POST /api/fraud/report` leaves `verification` untouched and never runs
`calculateTrustScore`) has `verificationCount = 0` but stored trust score 0,
not 30. -/
theorem freshReport_scores_zero_not_30 :
    freshReport.verification.verificationCount = 0 ∧
    freshReport.verification.trustScore ≠ 30 := by
  decide

/-- C4 amended: `calculateTrustScore` sets the trust score to exactly 30 on
every report whose `verificationCount` is 0, and does so on a freshly created
report — but the fresh report's *stored* score is the schema default 0 until
the computation first runs (which happens only on the vote path). -/
theorem calculateTrustScore_zero_count :
    (∀ r : Report, r.verification.verificationCount = 0 →
        (calculateTrustScore r).verification.trustScore = 30) ∧
    freshReport.verification.trustScore = 0 ∧
    (calculateTrustScore freshReport).verification.trustScore = 30 := by
  refine ⟨?_, by decide, by decide⟩
  intro r h
  simp [calculateTrustScore, h]

/-- Witness for C4 at the fresh report. -/
theorem calculateTrustScore_zero_count_witness :
    freshReport.verification.verificationCount = 0 ∧
    (calculateTrustScore freshReport).verification.trustScore = 30 :=
  ⟨by decide, calculateTrustScore_zero_count.1 freshReport (by decide)⟩

/-! ## Claim C3 -/

/-- A voter is resolvable exactly when a trust score is present and nonzero. -/
theorem resolvable_iff (v : VEntry) :
    resolvable v = true ↔ ∃ t, v.voterTrust = some t ∧ t ≠ 0 := by
  unfold resolvable
  cases h : v.voterTrust <;> simp

/-- The §8 scenario report: voter A (trust score 80) confirms, voter B
(trust score 40) denies. -/
def scenarioReportAB : Report :=
  { verification :=
    { trustScore := 0
      verificationCount := 2
      verifiedBy :=
        [ ⟨1, some 80, Vote.confirm, "", 0⟩
        , ⟨2, some 40, Vote.deny, "", 0⟩ ]
      status := VerificationStatus.pending } }

/-- C3: on a report with at least one resolvable voter, `calculateTrustScore`
weighs each resolvable entry by `voterTrustScore/100`, accumulating
`weightedConfirm` over confirm votes and `totalWeight` over all resolvable
voters (uncertain votes enter `totalWeight` but never the numerator), and sets
`trustScore = round(100 * weightedConfirm / totalWeight)`; in particular
voters A (trust 80, confirm) and B (trust 40, deny) yield trust score 67 and
status pending. -/
theorem calculateTrustScore_weighted :
    (∀ r : Report,
        r.verification.verificationCount = r.verification.verifiedBy.length →
        (∃ v ∈ r.verification.verifiedBy, resolvable v = true) →
        (calculateTrustScore r).verification.trustScore =
          jsRound (100 * weightedConfirmOf r.verification.verifiedBy /
            totalWeightOf r.verification.verifiedBy)) ∧
    ((calculateTrustScore scenarioReportAB).verification.trustScore = 67 ∧
      (calculateTrustScore scenarioReportAB).verification.status =
        VerificationStatus.pending) := by
  refine ⟨?_, ?_, ?_⟩
  · intro r hwf hres
    obtain ⟨v, hv, hresv⟩ := hres
    have hne : r.verification.verifiedBy ≠ [] := by
      intro h
      rw [h] at hv
      cases hv
    have hcount : ¬ r.verification.verificationCount = 0 := by
      rw [hwf]
      simpa [List.length_eq_zero] using hne
    have hvpos : 0 < resolvableWeight v := by
      obtain ⟨t, ht, htne⟩ := (resolvable_iff v).mp hresv
      have htq : (0 : ℚ) < (t : ℚ) := by exact_mod_cast Nat.pos_of_ne_zero htne
      simp only [resolvableWeight, hresv, if_true, entryWeight, ht]
      exact div_pos htq (by norm_num)
    have htw : 0 < totalWeightOf r.verification.verifiedBy := by
      have hmem : resolvableWeight v ∈ r.verification.verifiedBy.map resolvableWeight :=
        List.mem_map_of_mem _ hv
      have hle : resolvableWeight v ≤ totalWeightOf r.verification.verifiedBy :=
        List.single_le_sum
          (by
            intro x hx
            obtain ⟨w, _, rfl⟩ := List.mem_map.mp hx
            exact resolvableWeight_nonneg w)
          _ hmem
      linarith
    have hacc := accumulateWeights_eq r.verification.verifiedBy
    simp only [calculateTrustScore, if_neg hcount, hacc]
    simp only [htw, if_true]
    congr 1
    ring
  · norm_num [calculateTrustScore, scenarioReportAB, accumulateWeights, resolvable,
      entryWeight, jsRound, (by decide : ¬ (Vote.deny = Vote.confirm)),
      (by decide : (Vote.deny = Vote.deny))]
  · norm_num [calculateTrustScore, scenarioReportAB, accumulateWeights, resolvable,
      entryWeight, jsRound, (by decide : ¬ (Vote.deny = Vote.confirm)),
      (by decide : (Vote.deny = Vote.deny))]

/-- Witness for C3 at the scenario report. -/
theorem calculateTrustScore_weighted_witness :
    scenarioReportAB.verification.verificationCount =
        scenarioReportAB.verification.verifiedBy.length ∧
    (calculateTrustScore scenarioReportAB).verification.trustScore =
      jsRound (100 * weightedConfirmOf scenarioReportAB.verification.verifiedBy /
        totalWeightOf scenarioReportAB.verification.verifiedBy) :=
  ⟨by decide, calculateTrustScore_weighted.1 scenarioReportAB (by decide) (by decide)⟩

/-! ## Claim C5 -/

/-- A report with two votes, neither voter resolvable (one missing record, one
zero trust score). -/
def fallbackReport : Report :=
  { verification :=
    { trustScore := 0
      verificationCount := 2
      verifiedBy :=
        [ ⟨1, none, Vote.confirm, "", 0⟩
        , ⟨2, some 0, Vote.deny, "", 0⟩ ]
      status := VerificationStatus.pending } }

/-- C5: when `verificationCount > 0` but no voter weight is resolvable, the
score falls back to the unweighted `round(100 * confirmCount / totalVotes)`
(whose denominator `totalVotes = verificationCount` is nonzero by hypothesis,
so the computation never divides by zero); an unresolvable voter contributes
nothing to the weight accumulation, so missing voter records never make the
computation fail. -/
theorem calculateTrustScore_fallback :
    (∀ r : Report, 0 < r.verification.verificationCount →
        (∀ v ∈ r.verification.verifiedBy, resolvable v = false) →
        (calculateTrustScore r).verification.trustScore =
          jsRound (100 * ((r.verification.verifiedBy.filter
              (fun v => v.vote = Vote.confirm)).length : ℚ) /
            (r.verification.verificationCount : ℚ))) ∧
    (∀ (v : VEntry) (es : List VEntry), resolvable v = false →
        accumulateWeights (v :: es) = accumulateWeights es) := by
  constructor
  · intro r hpos hall
    have htw : totalWeightOf r.verification.verifiedBy = 0 := by
      apply List.sum_eq_zero
      intro x hx
      obtain ⟨v, hv, rfl⟩ := List.mem_map.mp hx
      simp [resolvableWeight, hall v hv]
    have hcount : ¬ r.verification.verificationCount = 0 := by omega
    have hacc := accumulateWeights_eq r.verification.verifiedBy
    simp only [calculateTrustScore, if_neg hcount, hacc, htw]
    norm_num
    congr 1
    ring
  · intro v es h
    simp [accumulateWeights, h]

/-- Witness for C5 at a report with two unresolvable voters. -/
theorem calculateTrustScore_fallback_witness :
    0 < fallbackReport.verification.verificationCount ∧
    (calculateTrustScore fallbackReport).verification.trustScore =
      jsRound (100 * ((fallbackReport.verification.verifiedBy.filter
          (fun v => v.vote = Vote.confirm)).length : ℚ) /
        (fallbackReport.verification.verificationCount : ℚ)) :=
  ⟨by decide, calculateTrustScore_fallback.1 fallbackReport (by decide) (by decide)⟩

/-! ## Claim C6 -/

/-- A well-formed single-vote report used as a concrete witness input. -/
def singleVoteReport : Report :=
  { verification :=
    { trustScore := 0
      verificationCount := 1
      verifiedBy := [ ⟨1, some 80, Vote.confirm, "", 0⟩ ]
      status := VerificationStatus.pending } }

/-- C6: `calculateTrustScore` is idempotent — a second application to an
unchanged report returns the same report — and on every report whose
verification count matches its entry list (the invariant the vote path
maintains) the resulting trust score lies in [0, 100]. -/
theorem calculateTrustScore_idempotent_bounded :
    (∀ r : Report, calculateTrustScore (calculateTrustScore r) = calculateTrustScore r) ∧
    (∀ r : Report,
        r.verification.verificationCount = r.verification.verifiedBy.length →
        0 ≤ (calculateTrustScore r).verification.trustScore ∧
        (calculateTrustScore r).verification.trustScore ≤ 100) := by
  constructor
  · intro r
    by_cases h0 : r.verification.verificationCount = 0 <;>
      simp [calculateTrustScore, h0]
  · intro r hwf
    by_cases h0 : r.verification.verificationCount = 0
    · simp [calculateTrustScore, h0]
    · have hacc := accumulateWeights_eq r.verification.verifiedBy
      simp only [calculateTrustScore, if_neg h0, hacc]
      by_cases htw : 0 < totalWeightOf r.verification.verifiedBy
      · simp only [htw, if_true]
        have hwc0 := weightedConfirmOf_nonneg r.verification.verifiedBy
        have hle := weightedConfirmOf_le_totalWeightOf r.verification.verifiedBy
        have h1 : 0 ≤ weightedConfirmOf r.verification.verifiedBy /
            totalWeightOf r.verification.verifiedBy * 100 := by
          have := div_nonneg hwc0 (le_of_lt htw)
          linarith
        have h2 : weightedConfirmOf r.verification.verifiedBy /
            totalWeightOf r.verification.verifiedBy * 100 ≤ 100 := by
          have h3 : weightedConfirmOf r.verification.verifiedBy /
              totalWeightOf r.verification.verifiedBy ≤ 1 := (div_le_one htw).mpr hle
          linarith
        exact jsRound_bounds h1 h2
      · simp only [htw, if_false]
        have hfl : ((r.verification.verifiedBy.filter
            (fun v => v.vote = Vote.confirm)).length : ℚ) ≤
            (r.verification.verificationCount : ℚ) := by
          rw [hwf]
          exact_mod_cast List.length_filter_le _ _
        have htpos : (0 : ℚ) < (r.verification.verificationCount : ℚ) := by
          exact_mod_cast Nat.pos_of_ne_zero h0
        have h1 : 0 ≤ ((r.verification.verifiedBy.filter
            (fun v => v.vote = Vote.confirm)).length : ℚ) /
            (r.verification.verificationCount : ℚ) * 100 := by
          have := div_nonneg (by positivity : (0:ℚ) ≤ ((r.verification.verifiedBy.filter
            (fun v => v.vote = Vote.confirm)).length : ℚ)) (le_of_lt htpos)
          linarith
        have h2 : ((r.verification.verifiedBy.filter
            (fun v => v.vote = Vote.confirm)).length : ℚ) /
            (r.verification.verificationCount : ℚ) * 100 ≤ 100 := by
          have h3 := (div_le_one htpos).mpr hfl
          linarith
        exact jsRound_bounds h1 h2

/-- Witness for C6 at a well-formed single-vote report. -/
theorem calculateTrustScore_idempotent_bounded_witness :
    singleVoteReport.verification.verificationCount =
        singleVoteReport.verification.verifiedBy.length ∧
    0 ≤ (calculateTrustScore singleVoteReport).verification.trustScore ∧
    (calculateTrustScore singleVoteReport).verification.trustScore ≤ 100 :=
  ⟨by decide,
    (calculateTrustScore_idempotent_bounded.2 singleVoteReport (by decide)).1,
    (calculateTrustScore_idempotent_bounded.2 singleVoteReport (by decide)).2⟩

/-! ## Claim C2 -/

theorem updateFirst_length (p : α → Bool) (f : α → α) (l : List α) :
    (updateFirst p f l).length = l.length := by
  induction l with
  | nil => rfl
  | cons x xs ih =>
    unfold updateFirst
    split <;> simp [ih]

theorem updateFirst_countP (p key : α → Bool) (f : α → α)
    (hf : ∀ a, key (f a) = key a) (l : List α) :
    (updateFirst p f l).countP key = l.countP key := by
  induction l with
  | nil => rfl
  | cons x xs ih =>
    unfold updateFirst
    split
    · simp [List.countP_cons, hf]
    · simp [List.countP_cons, ih]

theorem find?_updateFirst (p : α → Bool) (f : α → α)
    (hf : ∀ a, p a = true → p (f a) = true) (l : List α) (h : l.any p = true) :
    ∃ b ∈ l, p b = true ∧ (updateFirst p f l).find? p = some (f b) := by
  induction l with
  | nil => cases h
  | cons x xs ih =>
    unfold updateFirst
    by_cases hx : p x = true
    · refine ⟨x, List.mem_cons_self x xs, hx, ?_⟩
      rw [if_pos hx]
      exact List.find?_cons_of_pos _ (hf x hx)
    · rw [if_neg hx]
      have h' : xs.any p = true := by
        rcases List.any_eq_true.mp h with ⟨b, hb, hpb⟩
        rcases List.mem_cons.mp hb with rfl | hb'
        · exact absurd hpb hx
        · exact List.any_eq_true.mpr ⟨b, hb', hpb⟩
      obtain ⟨b, hb, hpb, hfind⟩ := ih h'
      refine ⟨b, List.mem_cons_of_mem x hb, hpb, ?_⟩
      rw [List.find?_cons_of_neg _ hx, hfind]

/-- Entry counts and lookups pass through the trust-score recomputation. -/
theorem countFor_calculateTrustScore (r : Report) (voterId : ℕ) :
    countFor (calculateTrustScore r) voterId = countFor r voterId := by
  unfold countFor
  rw [(calculateTrustScore_preserves r).1]

theorem findFor_calculateTrustScore (r : Report) (voterId : ℕ) :
    findFor (calculateTrustScore r) voterId = findFor r voterId := by
  unfold findFor
  rw [(calculateTrustScore_preserves r).1]

/-- The entry list after the vote mutation: updated in place when the voter
already has an entry, appended otherwise. -/
theorem applyVoteEntries_verifiedBy (r : Report) (voterId : ℕ)
    (voterTrust : Option ℕ) (vote : Vote) (comment : String) (now : ℕ) :
    (applyVoteEntries r voterId voterTrust vote comment now).verification.verifiedBy =
      (if r.verification.verifiedBy.any (fun v => v.voterId = voterId) then
        updateFirst (fun v => v.voterId = voterId)
          (fun v => { v with vote := vote, comment := comment, verifiedAt := now })
          r.verification.verifiedBy
      else r.verification.verifiedBy ++ [⟨voterId, voterTrust, vote, comment, now⟩]) := by
  unfold applyVoteEntries
  dsimp only
  by_cases h : (r.verification.verifiedBy.any fun v => decide (v.voterId = voterId)) = true
  · rw [if_pos h, if_pos h]
  · rw [if_neg h, if_neg h]

/-- The verification count after the vote mutation: unchanged on an in-place
update, incremented on an append. -/
theorem applyVoteEntries_count (r : Report) (voterId : ℕ)
    (voterTrust : Option ℕ) (vote : Vote) (comment : String) (now : ℕ) :
    (applyVoteEntries r voterId voterTrust vote comment now).verification.verificationCount =
      (if r.verification.verifiedBy.any (fun v => v.voterId = voterId) then
        r.verification.verificationCount
      else r.verification.verificationCount + 1) := by
  unfold applyVoteEntries
  dsimp only
  by_cases h : (r.verification.verifiedBy.any fun v => decide (v.voterId = voterId)) = true
  · rw [if_pos h, if_pos h]
  · rw [if_neg h, if_neg h]

/-- The vote route preserves the invariant that the verification count equals
the number of entries (it holds for a fresh report, where both are zero, so it
holds on every reachable report). -/
theorem applyVote_preserves_wf (r : Report) (voterId : ℕ) (voterTrust : Option ℕ)
    (vote : Vote) (comment : String) (now : ℕ)
    (hwf : r.verification.verificationCount = r.verification.verifiedBy.length) :
    (applyVote r voterId voterTrust vote comment now).verification.verificationCount =
      (applyVote r voterId voterTrust vote comment now).verification.verifiedBy.length := by
  have hpres := calculateTrustScore_preserves
    (applyVoteEntries r voterId voterTrust vote comment now)
  rw [applyVote, hpres.1, hpres.2, applyVoteEntries_verifiedBy, applyVoteEntries_count]
  by_cases h : r.verification.verifiedBy.any (fun v => v.voterId = voterId) = true
  · rw [if_pos h, if_pos h, updateFirst_length, hwf]
  · rw [if_neg h, if_neg h]
    simp [hwf]

/-- C2: `applyVote` keeps at most one verification entry per voter.  When the
voter already has an entry, that entry's vote, comment and timestamp are
overwritten in place — the list length and `verificationCount` are unchanged;
when the voter is new, one entry is appended and `verificationCount` is
incremented by one — and in either case every voter still has at most one
entry afterwards. -/
theorem applyVote_one_entry_per_voter (r : Report) (voterId : ℕ)
    (voterTrust : Option ℕ) (vote : Vote) (comment : String) (now : ℕ)
    (hwf : ∀ id, countFor r id ≤ 1) :
    (r.verification.verifiedBy.any (fun v => v.voterId = voterId) = true →
        (applyVote r voterId voterTrust vote comment now).verification.verifiedBy.length =
          r.verification.verifiedBy.length ∧
        (applyVote r voterId voterTrust vote comment now).verification.verificationCount =
          r.verification.verificationCount ∧
        (∃ e, findFor (applyVote r voterId voterTrust vote comment now) voterId = some e ∧
          e.vote = vote ∧ e.comment = comment ∧ e.verifiedAt = now)) ∧
    (r.verification.verifiedBy.any (fun v => v.voterId = voterId) = false →
        (applyVote r voterId voterTrust vote comment now).verification.verifiedBy.length =
          r.verification.verifiedBy.length + 1 ∧
        (applyVote r voterId voterTrust vote comment now).verification.verificationCount =
          r.verification.verificationCount + 1 ∧
        findFor (applyVote r voterId voterTrust vote comment now) voterId =
          some ⟨voterId, voterTrust, vote, comment, now⟩) ∧
    (∀ id, countFor (applyVote r voterId voterTrust vote comment now) id ≤ 1) := by
  have hvb := applyVoteEntries_verifiedBy r voterId voterTrust vote comment now
  have hcnt := applyVoteEntries_count r voterId voterTrust vote comment now
  have hpres := calculateTrustScore_preserves
    (applyVoteEntries r voterId voterTrust vote comment now)
  refine ⟨?_, ?_, ?_⟩
  · intro h
    simp only [applyVote, hpres.1, hpres.2, findFor_calculateTrustScore]
    unfold findFor
    rw [hvb, hcnt, if_pos h, if_pos h]
    refine ⟨updateFirst_length _ _ _, rfl, ?_⟩
    obtain ⟨b, hb, hpb, hfind⟩ := find?_updateFirst
      (fun v => decide (v.voterId = voterId))
      (fun v => { v with vote := vote, comment := comment, verifiedAt := now })
      (by intro a ha; simpa using ha) r.verification.verifiedBy h
    exact ⟨_, hfind, rfl, rfl, rfl⟩
  · intro h
    have h' : ¬ r.verification.verifiedBy.any (fun v => v.voterId = voterId) = true := by
      simp [h]
    simp only [applyVote, hpres.1, hpres.2, findFor_calculateTrustScore]
    unfold findFor
    rw [hvb, hcnt, if_neg h', if_neg h']
    refine ⟨by simp, rfl, ?_⟩
    rw [List.find?_append]
    have hnone : r.verification.verifiedBy.find?
        (fun v => decide (v.voterId = voterId)) = none := by
      rw [List.find?_eq_none]
      intro x hx
      have := List.any_eq_false.mp h x hx
      simpa using this
    rw [hnone]
    simp
  · intro id
    rw [applyVote, countFor_calculateTrustScore]
    have hcount : ∀ s : Report, countFor s id =
        s.verification.verifiedBy.countP (fun v => decide (v.voterId = id)) := by
      intro s
      unfold countFor
      rw [List.countP_eq_length_filter]
    rw [hcount, hvb]
    by_cases h : r.verification.verifiedBy.any (fun v => v.voterId = voterId) = true
    · rw [if_pos h, updateFirst_countP _ _ _ (fun a => by simp)]
      have := hwf id
      rw [hcount r] at this
      exact this
    · rw [if_neg h, List.countP_append]
      have hfalse : r.verification.verifiedBy.any (fun v => v.voterId = voterId) = false := by
        simpa using h
      by_cases hid : voterId = id
      · have h0 : r.verification.verifiedBy.countP (fun v => decide (v.voterId = id)) = 0 := by
          rw [List.countP_eq_zero]
          intro a ha
          have := List.any_eq_false.mp hfalse a ha
          simpa [hid] using this
        have h1 : (([⟨voterId, voterTrust, vote, comment, now⟩] : List VEntry)).countP
            (fun v => decide (v.voterId = id)) ≤ 1 := by
          simp [List.countP_cons, hid]
        omega
      · have h1 : (([⟨voterId, voterTrust, vote, comment, now⟩] : List VEntry)).countP
            (fun v => decide (v.voterId = id)) = 0 := by
          simp [List.countP_cons, hid]
        have h2 := hwf id
        rw [hcount r] at h2
        omega

/-- Witness for C2: a second voter votes on the single-vote report. -/
theorem applyVote_one_entry_per_voter_witness :
    (applyVote singleVoteReport 2 (some 60) Vote.deny "x" 5).verification.verificationCount =
        singleVoteReport.verification.verificationCount + 1 ∧
    (∀ id, countFor (applyVote singleVoteReport 2 (some 60) Vote.deny "x" 5) id ≤ 1) := by
  have hwf : ∀ id, countFor singleVoteReport id ≤ 1 := by
    intro id
    by_cases h : (1 : ℕ) = id <;>
      simp [countFor, singleVoteReport, List.filter, h]
  have h := applyVote_one_entry_per_voter singleVoteReport 2 (some 60) Vote.deny "x" 5 hwf
  exact ⟨(h.2.1 (by decide)).2.1, h.2.2⟩

/-! ## Claim C7 -/

/-- An active, push-enabled user whose configured alert radius (50 km) exceeds
the global candidate-query radius. -/
def farUser : CandidateUser := ⟨7, true, true, 50, [], none, "far@x"⟩

/-- A report by user 1 used for the proximity scenarios. -/
def proximityReport : ReportInfo := ⟨100, 1, "phishing", Priority.medium, none, none⟩

/-- A distance function placing every user 30 km from the report. -/
def distThirty : ℕ → ℚ := fun _ => 30

/-- C7 counterexample: a user 30 km away with a configured 50 km radius meets
every condition of the claim (distance within their own radius, subscribed to
all categories, not the reporter), yet `createProximityAlerts` produces no
alert for them — the `$near` candidate query caps all proximity alerts at the
global 10 km `alertRadius` before the user's own radius is consulted. -/
theorem createProximityAlerts_global_cap_counterexample :
    farUser.isActive = true ∧ farUser.pushEnabled = true ∧
    distThirty farUser.id ≤ farUser.alertRadius ∧
    (farUser.fraudTypes = [] ∨ proximityReport.fraudType ∈ farUser.fraudTypes) ∧
    farUser.id ≠ proximityReport.reportedBy ∧
    createProximityAlerts [farUser] proximityReport distThirty = [] := by
  refine ⟨rfl, rfl, by norm_num [farUser, distThirty], Or.inl rfl, by decide, ?_⟩
  norm_num [createProximityAlerts, farUser, distThirty, List.filter]

/-- C7 amended: an active, push-enabled user receives a proximity alert if and
only if their distance is within the **global 10 km candidate radius** AND
within their own configured `alertRadius` (both boundaries inclusive) AND
their subscribed fraud-type set is empty or contains the report's category AND
they are not the reporter. -/
theorem createProximityAlerts_qualification (users : List CandidateUser)
    (report : ReportInfo) (dist : ℕ → ℚ) (u : CandidateUser)
    (hmem : u ∈ users) (hact : u.isActive = true) (hpush : u.pushEnabled = true)
    (hnd : (users.map CandidateUser.id).Nodup) :
    (∃ a ∈ createProximityAlerts users report dist, a.user = u.id) ↔
      (dist u.id ≤ 10 ∧ dist u.id ≤ u.alertRadius ∧
        (u.fraudTypes = [] ∨ report.fraudType ∈ u.fraudTypes) ∧
        u.id ≠ report.reportedBy) := by
  simp only [createProximityAlerts]
  constructor
  · rintro ⟨a, ha, hau⟩
    obtain ⟨x, hx, hfx⟩ := List.mem_filterMap.mp ha
    obtain ⟨hxu, hq⟩ := List.mem_filter.mp hx
    by_cases h1 : x.id = report.reportedBy
    · rw [if_pos h1] at hfx
      cases hfx
    rw [if_neg h1] at hfx
    by_cases h2 : 0 < x.fraudTypes.length ∧ ¬ report.fraudType ∈ x.fraudTypes
    · rw [if_pos h2] at hfx
      cases hfx
    rw [if_neg h2] at hfx
    by_cases h3 : dist x.id > x.alertRadius
    · rw [if_pos h3] at hfx
      cases hfx
    rw [if_neg h3] at hfx
    have ha' : a = ⟨x.id, report.id, AlertType.proximity,
        getSeverityFromPriority report.priority⟩ := (Option.some.inj hfx).symm
    have hxid : x.id = u.id := by
      rw [ha'] at hau
      exact hau
    have hxeq : x = u := List.inj_on_of_nodup_map hnd hxu hmem hxid
    subst hxeq
    have h10 : dist x.id ≤ 10 := by
      simp only [Bool.and_eq_true, decide_eq_true_eq] at hq
      exact hq.2
    refine ⟨h10, not_lt.mp h3, ?_, h1⟩
    rcases Nat.eq_zero_or_pos x.fraudTypes.length with hz | hpos
    · exact Or.inl (List.length_eq_zero.mp hz)
    · right
      by_contra hmemc
      exact h2 ⟨hpos, hmemc⟩
  · rintro ⟨h10, hrad, hcat, hrep⟩
    refine ⟨⟨u.id, report.id, AlertType.proximity,
        getSeverityFromPriority report.priority⟩, ?_, rfl⟩
    apply List.mem_filterMap.mpr
    have hcat' : ¬ (0 < u.fraudTypes.length ∧ ¬ report.fraudType ∈ u.fraudTypes) := by
      rintro ⟨hpos, hnotmem⟩
      rcases hcat with hempty | hmemc
      · simp [hempty] at hpos
      · exact hnotmem hmemc
    refine ⟨u, List.mem_filter.mpr ⟨hmem, ?_⟩, ?_⟩
    · simp [hact, hpush, h10]
    · dsimp only
      rw [if_neg hrep, if_neg hcat', if_neg (not_lt.mpr hrad)]

/-- A user 5 km from the report with a 5 km configured radius (inclusive
boundary). -/
def nearUser : CandidateUser := ⟨7, true, true, 5, [], none, "near@x"⟩

/-- A distance function placing every user 5 km from the report. -/
def distFive : ℕ → ℚ := fun _ => 5

/-- Witness for C7 amended: the boundary user qualifies and an alert exists. -/
theorem createProximityAlerts_qualification_witness :
    nearUser ∈ [nearUser] ∧
    (∃ a ∈ createProximityAlerts [nearUser] proximityReport distFive,
      a.user = nearUser.id) :=
  ⟨List.mem_singleton_self _,
    (createProximityAlerts_qualification [nearUser] proximityReport distFive nearUser
        (List.mem_singleton_self _) rfl rfl (by simp)).mpr
      ⟨by norm_num [distFive, nearUser], by norm_num [distFive, nearUser],
        Or.inl rfl, by decide⟩⟩

/-! ## Claim C1 -/

/-- Every alert built by the per-user identifier scan names that user as
recipient. -/
theorem matchAlertsFor_user (report : ReportInfo) (u : CandidateUser)
    (a : AlertRecord) (ha : a ∈ matchAlertsFor report u) : a.user = u.id := by
  unfold matchAlertsFor at ha
  rcases List.mem_append.mp ha with h | h
  · cases hp : report.evidencePhone with
    | none =>
      rw [hp] at h
      cases h
    | some p =>
      rw [hp] at h
      dsimp only at h
      by_cases hup : u.phone = some p
      · rw [if_pos hup] at h
        rw [List.mem_singleton.mp h]
      · rw [if_neg hup] at h
        cases h
  · cases he : report.evidenceEmail with
    | none =>
      rw [he] at h
      cases h
    | some e =>
      rw [he] at h
      dsimp only at h
      by_cases hue : u.email = e
      · rw [if_pos hue] at h
        rw [List.mem_singleton.mp h]
      · rw [if_neg hue] at h
        cases h

/-- A single identifier scan builds at most one alert per
`(user, report, alertType)` triple for any given user. -/
theorem matchAlertsFor_countP_le (report : ReportInfo) (u : CandidateUser)
    (uid rid : ℕ) (t : AlertType) :
    (matchAlertsFor report u).countP (tripleIs uid rid t) ≤ 1 := by
  unfold matchAlertsFor
  rw [List.countP_append]
  cases hp : report.evidencePhone <;> cases he : report.evidenceEmail <;>
    cases t <;> dsimp only <;>
    (try split_ifs) <;>
    (try simp [tripleIs, List.countP_cons]) <;>
    (try split_ifs) <;>
    (try simp)

/-- An active user whose phone matches the report's evidence phone. -/
def matchedUser : CandidateUser := ⟨7, true, true, 5, [], some "p1", "v@x"⟩

/-- A report carrying that phone number as evidence. -/
def phoneReport : ReportInfo := ⟨100, 1, "otp_fraud", Priority.medium, some "p1", none⟩

/-- C1 counterexample: invoking the identifier-match alert creation again for
a report whose `(recipient, report, phone_match)` triple already has an alert
creates a second record — the code never consults the store and `alertSchema`
has no unique index on the triple, so the claimed no-op/uniqueness does not
hold. -/
theorem createMatchAlerts_duplicate_counterexample :
    (createMatchAlerts [matchedUser] phoneReport []).countP
        (tripleIs matchedUser.id phoneReport.id AlertType.phoneMatch) = 1 ∧
    (createMatchAlerts [matchedUser] phoneReport
        (createMatchAlerts [matchedUser] phoneReport [])).countP
        (tripleIs matchedUser.id phoneReport.id AlertType.phoneMatch) = 2 := by
  constructor <;> rfl

/-- C1 amended: alert creation performs no duplicate check — each invocation
unconditionally appends its alerts to the store, so re-invoking for a triple
that already has an alert duplicates it; only *within* one invocation does
each `(recipient, report, alertType)` triple get at most one alert. -/
theorem createMatchAlerts_no_dedup :
    (∀ (users : List CandidateUser) (report : ReportInfo) (store : List AlertRecord),
        createMatchAlerts users report store =
          store ++ createMatchAlerts users report []) ∧
    (∀ (users : List CandidateUser) (report : ReportInfo) (uid rid : ℕ) (t : AlertType),
        (users.map CandidateUser.id).Nodup →
        (createMatchAlerts users report []).countP (tripleIs uid rid t) ≤ 1) := by
  constructor
  · intro users report store
    simp [createMatchAlerts]
  · intro users report uid rid t hnd
    have hzero : ∀ (l : List CandidateUser), uid ∉ l.map CandidateUser.id →
        ((l.filter (fun u => u.isActive)).flatMap (matchAlertsFor report)).countP
          (tripleIs uid rid t) = 0 := by
      intro l hl
      rw [List.countP_eq_zero]
      intro a ha hta
      obtain ⟨x, hx, hax⟩ := List.mem_flatMap.mp ha
      have hauser := matchAlertsFor_user report x a hax
      have hxl : x ∈ l := (List.mem_filter.mp hx).1
      have hauid : a.user = uid := by
        simpa [tripleIs] using And.left (by simpa [tripleIs] using hta)
      exact hl (List.mem_map.mpr ⟨x, hxl, by rw [← hauser, hauid]⟩)
    induction users with
    | nil => simp [createMatchAlerts]
    | cons u us ih =>
      rw [List.map_cons] at hnd
      obtain ⟨hhead, htail⟩ := List.nodup_cons.mp hnd
      simp only [createMatchAlerts, List.nil_append] at ih ⊢
      by_cases hau : u.isActive = true
      · rw [List.filter_cons_of_pos (by simpa using hau), List.flatMap_cons,
          List.countP_append]
        by_cases huid : u.id = uid
        · have hrest : ((us.filter (fun u => u.isActive)).flatMap
              (matchAlertsFor report)).countP (tripleIs uid rid t) = 0 := by
            apply hzero
            rw [← huid]
            exact hhead
          have hhead1 := matchAlertsFor_countP_le report u uid rid t
          omega
        · have hheadzero : (matchAlertsFor report u).countP (tripleIs uid rid t) = 0 := by
            rw [List.countP_eq_zero]
            intro a ha hta
            have hauser := matchAlertsFor_user report u a ha
            have hauid : a.user = uid := by
              simpa [tripleIs] using And.left (by simpa [tripleIs] using hta)
            exact huid (by rw [← hauser, hauid])
          have := ih htail
          omega
      · rw [List.filter_cons_of_neg (by simpa using hau)]
        exact ih htail

/-- Witness for C1 amended at the matched user. -/
theorem createMatchAlerts_no_dedup_witness :
    (([matchedUser].map CandidateUser.id).Nodup) ∧
    (createMatchAlerts [matchedUser] phoneReport []).countP
      (tripleIs matchedUser.id phoneReport.id AlertType.phoneMatch) ≤ 1 :=
  ⟨by simp,
    createMatchAlerts_no_dedup.2 [matchedUser] phoneReport matchedUser.id
      phoneReport.id AlertType.phoneMatch (by simp)⟩

end FraudRadar
